import Mathlib

/-!
Verification development for the air-quality dashboard page
(`frontend/src/pages`, the component handling live telemetry).

The embedding models the data pipeline of the page component:
normalization of raw API samples, sorting/truncation, statistical anomaly
detection, the fallback generator, and the fetch-cycle state update.

Modelling conventions:
* JS numbers are modelled as exact rationals; `none : JNum` models IEEE NaN
  (infinities do not arise on the modelled paths and are folded into `none`).
* `item.timestamp` strings are modelled by the instant they parse to
  (an integer count of milliseconds, as returned by `Date.getTime()`);
  date-string parsing itself is not modelled.
* `Math.random()` is modelled by an explicit stream `noise : Nat -> Rat`
  of draws, each in `[0, 1)`; `Date.prototype.getHours` (local time) is
  modelled by an explicit function `hourOf : Int -> Nat`.
-/

/-- JS number that may be NaN: `none` models NaN. -/
abbrev JNum := Option ℚ

/-- One processed sample: `{ timestamp: Date, value: number }`
(the display-only `time` string field is not modelled). -/
structure Sample where
  timestamp : ℤ
  value : JNum
deriving DecidableEq

/-- JSON value occupying the pollutant field of a raw API item. -/
inductive JsonVal where
  | jnull : JsonVal
  | jnum (q : ℚ) : JsonVal
  | jstr (s : String) : JsonVal
deriving DecidableEq

/-- One raw item of the API response: its parsed timestamp and the field
selected by `paramKey` (absent field is `none`). -/
structure RawItem where
  timestamp : ℤ
  field : Option JsonVal
deriving DecidableEq

/-- NaN-propagating JS addition. -/
def jadd : JNum → JNum → JNum
  | some a, some b => some (a + b)
  | _, _ => none

/-- NaN-propagating JS subtraction. -/
def jsub : JNum → JNum → JNum
  | some a, some b => some (a - b)
  | _, _ => none

/-- NaN-propagating JS multiplication. -/
def jmul : JNum → JNum → JNum
  | some a, some b => some (a * b)
  | _, _ => none

/-- JS division by a list length: division by zero length gives `0/0 = NaN`
(in the detector this case is cut off by the emptiness guard). -/
def jdivNat (x : JNum) (n : ℕ) : JNum :=
  match x with
  | none => none
  | some a => if n = 0 then none else some (a / (n : ℚ))

/-- JS `values.reduce((sum, val) => sum + val, 0)`. -/
def jsum (l : List JNum) : JNum := l.foldl jadd (some 0)

/-- JS strict `>` comparison: any comparison with NaN is false. -/
def jgtTest (v m variance : JNum) : Bool :=
  match v, m, variance with
  | some v, some m, some variance => decide (0 < v - m ∧ 9 * variance < (v - m) ^ 2)
  | _, _, _ => false

/-- The `mean` constant of `detectAnomalies`:
`values.reduce((sum, val) => sum + val, 0) / values.length`. -/
def detectMean (data : List Sample) : JNum :=
  jdivNat (jsum (data.map Sample.value)) data.length

/-- The variance under the `Math.sqrt` of the `stdDev` constant of
`detectAnomalies`: `values.reduce((sum, val) => sum + Math.pow(val - mean, 2), 0)
/ values.length` (`Math.pow(x, 2)` is `x * x`). -/
def detectVariance (data : List Sample) : JNum :=
  jdivNat
    (jsum ((data.map Sample.value).map
      (fun v => jmul (jsub v (detectMean data)) (jsub v (detectMean data)))))
    data.length

/-- Embedding of `detectAnomalies` (source lines 225–241) as the anomaly list
it hands to `setAnomalies`; `none` is the early `return` of the guard
`if (!data || data.length === 0)`, on which `setAnomalies` is not called.
The source tests `item.value > threshold` with
`threshold = mean + 3 * Math.sqrt(variance)`; over exact arithmetic that
test is equivalent (theorem `jgtTest_iff_threshold` below) to the
square-root-free test of `jgtTest`, and a comparison against a NaN
threshold is false, as in JS. -/
def detectAnomalies (data : List Sample) : Option (List Sample) :=
  if data.length = 0 then none
  else some (data.filter (fun s => jgtTest s.value (detectMean data) (detectVariance data)))

/-- Anomaly state after a `detectAnomalies(data)` call: the guard skips
`setAnomalies`, so the previous anomaly list survives. -/
def applyDetect (prev : List Sample) (data : List Sample) : List Sample :=
  (detectAnomalies data).getD prev

/-- Rational sum, the exact value of the JS reduce on NaN-free input. -/
def qsum (l : List ℚ) : ℚ := l.foldl (· + ·) 0

/-- Arithmetic mean of the values of a NaN-free series. -/
def qmean (l : List ℚ) : ℚ := qsum l / l.length

/-- Population variance of the values of a NaN-free series. -/
def qvariance (l : List ℚ) : ℚ :=
  qsum (l.map (fun v => (v - qmean l) ^ 2)) / l.length

/-- Threshold `mean + 3 * stdDev` of the source, with the real square root
standing for `Math.sqrt`. -/
noncomputable def qthreshold (l : List ℚ) : ℝ :=
  (qmean l : ℝ) + 3 * Real.sqrt (qvariance l)

/-- Numeric value of a decimal digit character. -/
def digitVal (c : Char) : ℕ := c.toNat - 48

/-- Decimal digits to a natural number. -/
def decodeDigits (cs : List Char) : ℕ := cs.foldl (fun n c => 10 * n + digitVal c) 0

/-- Decimal fragment of JS `parseFloat` on a character list: optional sign,
integer digits, optional fraction digits, trailing junk ignored; `none` (NaN)
when no digit is found. Exponent notation and `Infinity` do not occur in the
modelled inputs and are folded into `none`. -/
def parseFloatChars (cs : List Char) : Option ℚ :=
  let signAndRest : ℚ × List Char :=
    match cs with
    | '-' :: t => (-1, t)
    | '+' :: t => (1, t)
    | _ => (1, cs)
  let ip := signAndRest.2.takeWhile Char.isDigit
  let rest := signAndRest.2.dropWhile Char.isDigit
  let fp : List Char :=
    match rest with
    | '.' :: t => t.takeWhile Char.isDigit
    | _ => []
  if ip.isEmpty ∧ fp.isEmpty then none
  else some (signAndRest.1 * ((decodeDigits ip : ℚ) + (decodeDigits fp : ℚ) / 10 ^ fp.length))

/-- JS `parseFloat` on a string (leading whitespace skipped). -/
def parseFloatStr (s : String) : Option ℚ :=
  parseFloatChars (s.toList.dropWhile Char.isWhitespace)

/-- JS falsiness of a JSON value (`undefined` is the `none` of the field,
handled by `orZero`); the string "0" is truthy, as in JS. -/
def falsy : JsonVal → Bool
  | .jnull => true
  | .jnum q => decide (q = 0)
  | .jstr s => decide (s = "")

/-- The expression `item[paramKey] || 0`: a missing or falsy field becomes
the number `0`. -/
def orZero : Option JsonVal → JsonVal
  | none => .jnum 0
  | some v => if falsy v then .jnum 0 else v

/-- JS `parseFloat` applied to a JSON value: a number parses to itself, `null`
stringifies to "null" and gives NaN, a string is parsed. -/
def parseFloatJs : JsonVal → JNum
  | .jnum q => some q
  | .jnull => none
  | .jstr s => parseFloatStr s

/-- Normalization of one raw item (source lines 141–148):
`{ value: parseFloat(item[paramKey] || 0), timestamp: new Date(item.timestamp) }`
(the display-only `time` field is not modelled). -/
def processItem (item : RawItem) : Sample :=
  ⟨item.timestamp, parseFloatJs (orZero item.field)⟩

/-- The sort comparator `(a, b) => a.timestamp - b.timestamp` (ascending,
stable, source line 151). -/
def tsLe (a b : Sample) : Bool := decide (a.timestamp ≤ b.timestamp)

/-- The `processedData.sort(...)` step (source line 151); JS `Array.sort`
is a stable sort. -/
def sortByTs (l : List Sample) : List Sample := l.mergeSort tsLe

/-- The `processedData.slice(-96)` step (source line 154): keep the last 96
entries. -/
def keepRecent (l : List Sample) : List Sample := l.drop (l.length - 96)

/-- Series normalization on already-mapped samples: sort ascending by
timestamp, then keep the last 96 entries. -/
def normalizeSeries (l : List Sample) : List Sample := keepRecent (sortByTs l)

/-- Full normalization of an array response (source lines 141–154). -/
def processResponse (raw : List RawItem) : List Sample :=
  normalizeSeries (raw.map processItem)

/-- The digits of the site id, as extracted by `siteId.replace(/\D/g, "")`. -/
def siteDigits (siteId : String) : List Char := siteId.toList.filter Char.isDigit

/-- The `siteIndex` constant of `generateFallbackData` (source line 192):
`parseInt(siteId.replace(/\D/g, "")) % 10`; `none` models the NaN produced by
`parseInt` on a digitless id, which then poisons every generated value. -/
def siteIndexOf (siteId : String) : Option ℕ :=
  let ds := siteDigits siteId
  if ds.isEmpty then none else some (decodeDigits ds % 10)

/-- The `baseValue` of `generateFallbackData` (source lines 196–205):
`30 + siteIndex * 5`, plus `40 + (h - 7) * 20` in the morning window and
`50 + (h - 17) * 15` in the evening window. -/
def fallbackBase (idx : ℕ) (h : ℕ) : ℕ :=
  if 7 ≤ h ∧ h ≤ 10 then 30 + idx * 5 + (40 + (h - 7) * 20)
  else if 17 ≤ h ∧ h ≤ 20 then 30 + idx * 5 + (50 + (h - 17) * 15)
  else 30 + idx * 5

/-- JS `Math.round(x * 100) / 100` with `Math.round(y) = Math.floor(y + 0.5)`. -/
def jsRound2 (x : ℚ) : ℚ := ((⌊x * 100 + 1 / 2⌋ : ℤ) : ℚ) / 100

/-- One generated fallback sample (source lines 187–214): timestamp
`now - (23 - i) hours`, value `round2(baseValue + (r * 30 - 15))` where `r`
is the draw of `Math.random()` for this iteration and the hour feeding
`baseValue` is `timestamp.getHours()`. -/
def fallbackSample (sIdx : Option ℕ) (hourOf : ℤ → ℕ) (now : ℤ) (r : ℚ) (i : ℕ) : Sample :=
  let ts : ℤ := now - (23 - (i : ℤ)) * 3600000
  match sIdx with
  | none => ⟨ts, none⟩
  | some idx => ⟨ts, some (jsRound2 ((fallbackBase idx (hourOf ts) : ℚ) + (r * 30 - 15)))⟩

/-- Embedding of `generateFallbackData` (source lines 181–222): 24 hourly
synthetic samples. The ambient inputs of the source are explicit here:
`now` is `new Date()`, `hourOf` is the local-time `Date.prototype.getHours`,
and `noise i` is the value of `Math.random()` in iteration `i`. -/
def generateFallbackData (siteId : String) (now : ℤ) (hourOf : ℤ → ℕ)
    (noise : ℕ → ℚ) : List Sample :=
  (List.range 24).map (fun i => fallbackSample (siteIndexOf siteId) hourOf now (noise i) i)

/-- User-facing toast notifications emitted by `fetchLiveData`. -/
inductive Notice where
  | noDataWarning : Notice
  | fetchFailedError : Notice
deriving DecidableEq

/-- Outcome of the awaited `axios.get`: `ok (some items)` is a response whose
`data` is an array, `ok none` is a response whose `data` is missing or not an
array, `err` is a thrown network error. -/
inductive FetchOutcome where
  | ok : Option (List RawItem) → FetchOutcome
  | err : FetchOutcome
deriving DecidableEq

/-- Mutable view state touched by one fetch cycle (`loading` is omitted:
no claim concerns it). -/
structure PageState where
  graphData : List Sample
  anomalies : List Sample
  lastUpdated : Option ℤ
deriving DecidableEq

/-- One cycle of `fetchLiveData` (source lines 123–178) as a state update
plus the list of emitted notifications. The array branch stores the
normalized series, runs the detector, and stamps `lastUpdated`; the
non-array branch only emits `toast.warning`; the catch branch emits
`toast.error` and substitutes the fallback series. -/
def fetchStep (siteId : String) (now : ℤ) (hourOf : ℤ → ℕ) (noise : ℕ → ℚ)
    (st : PageState) (out : FetchOutcome) : PageState × List Notice :=
  match out with
  | .ok (some items) =>
      let recent := processResponse items
      (⟨recent, applyDetect st.anomalies recent, some now⟩, [])
  | .ok none => (st, [.noDataWarning])
  | .err =>
      let data := generateFallbackData siteId now hourOf noise
      (⟨data, applyDetect st.anomalies data, some now⟩, [.fetchFailedError])

/-- Refresh-scheduler bookkeeping: live `setInterval` handles and the number
of `fetchLiveData` calls triggered so far. -/
structure SchedState where
  activeTimers : ℕ
  fetchCalls : ℕ
deriving DecidableEq

/-- Body of the refresh effect (declared twice, source lines 244–252 and
268–277): it calls `fetchLiveData()` once and registers one interval. -/
def runRefreshEffectBody (s : SchedState) : SchedState :=
  ⟨s.activeTimers + 1, s.fetchCalls + 1⟩

/-- Cleanup of the refresh effect: `clearInterval` on its own handle. -/
def runRefreshEffectCleanup (s : SchedState) : SchedState :=
  ⟨s.activeTimers - 1, s.fetchCalls⟩

/-- Mount of the page: React runs the body of every declared effect once;
the refresh effect is declared twice. -/
def mountPage : SchedState :=
  runRefreshEffectBody (runRefreshEffectBody ⟨0, 0⟩)

/-- A change of `siteId`, `pollutantType`, `startDate` or `endDate` changes
the `fetchLiveData` callback identity, so React re-runs both declared refresh
effects: all cleanups, then all bodies. -/
def depsChange (s : SchedState) : SchedState :=
  runRefreshEffectBody (runRefreshEffectBody
    (runRefreshEffectCleanup (runRefreshEffectCleanup s)))

theorem foldl_add_some (l : List ℚ) : ∀ a : ℚ,
    (l.map some).foldl jadd (some a) = some (l.foldl (· + ·) a) := by
  induction l with
  | nil => intro a; rfl
  | cons x xs ih => intro a; simpa [jadd] using ih (a + x)

theorem jsum_map_some (l : List ℚ) : jsum (l.map some) = some (qsum l) :=
  foldl_add_some l 0

theorem foldl_add_const (c : ℚ) (l : List ℚ) (h : ∀ x ∈ l, x = c) : ∀ a : ℚ,
    l.foldl (· + ·) a = a + l.length * c := by
  induction l with
  | nil => intro a; simp
  | cons x xs ih =>
      intro a
      have hx : x = c := h x (by simp)
      have ih2 := ih (fun y hy => h y (by simp [hy])) (a + x)
      rw [List.foldl_cons, ih2, hx]
      simp only [List.length_cons]
      push_cast
      ring

theorem qsum_all_eq (c : ℚ) (l : List ℚ) (h : ∀ x ∈ l, x = c) :
    qsum l = l.length * c := by
  simpa [qsum] using foldl_add_const c l h 0

theorem foldl_add_nonneg (l : List ℚ) (h : ∀ x ∈ l, 0 ≤ x) : ∀ a : ℚ,
    a ≤ l.foldl (· + ·) a := by
  induction l with
  | nil => intro a; simp
  | cons x xs ih =>
      intro a
      have hx : 0 ≤ x := h x (by simp)
      have := ih (fun y hy => h y (by simp [hy])) (a + x)
      calc a ≤ a + x := by linarith
        _ ≤ _ := this

theorem qsum_nonneg (l : List ℚ) (h : ∀ x ∈ l, 0 ≤ x) : 0 ≤ qsum l :=
  foldl_add_nonneg l h 0

theorem qvariance_nonneg (l : List ℚ) : 0 ≤ qvariance l := by
  unfold qvariance
  apply div_nonneg
  · exact qsum_nonneg _ (by
      intro x hx
      rcases List.mem_map.mp hx with ⟨v, _, rfl⟩
      positivity)
  · positivity

/-- Equivalence of the source threshold test `v > mean + 3 * sqrt variance`
with the square-root-free test used in the computable embedding. -/
theorem jgtTest_iff_threshold (v m variance : ℚ) (hV : 0 ≤ variance) :
    ((m : ℝ) + 3 * Real.sqrt (variance : ℚ) < (v : ℝ)) ↔
      (0 < v - m ∧ 9 * variance < (v - m) ^ 2) := by
  have hs : (0 : ℝ) ≤ Real.sqrt (variance : ℚ) := Real.sqrt_nonneg _
  have hV' : (0 : ℝ) ≤ ((variance : ℚ) : ℝ) := by exact_mod_cast hV
  have hsq : Real.sqrt (variance : ℚ) ^ 2 = ((variance : ℚ) : ℝ) :=
    Real.sq_sqrt hV'
  constructor
  · intro h
    have hd : (0 : ℝ) < (v : ℝ) - (m : ℝ) := by linarith
    have hdq : 0 < v - m := by
      have hc : ((0 : ℚ) : ℝ) < ((v - m : ℚ) : ℝ) := by push_cast; linarith
      exact_mod_cast hc
    refine ⟨hdq, ?_⟩
    have h3 : 3 * Real.sqrt (variance : ℚ) < (v : ℝ) - (m : ℝ) := by linarith
    have hpow : (3 * Real.sqrt (variance : ℚ)) ^ 2 < ((v : ℝ) - (m : ℝ)) ^ 2 := by
      apply pow_lt_pow_left h3 (by positivity)
      norm_num
    have h9 : 9 * ((variance : ℚ) : ℝ) < ((v : ℝ) - (m : ℝ)) ^ 2 := by
      nlinarith [hsq]
    have hc : ((9 * variance : ℚ) : ℝ) < (((v - m) ^ 2 : ℚ) : ℝ) := by
      push_cast
      nlinarith [h9]
    exact_mod_cast hc
  · rintro ⟨h1, h2⟩
    have h1' : (0 : ℝ) < (v : ℝ) - (m : ℝ) := by
      have hc : ((0 : ℚ) : ℝ) < ((v - m : ℚ) : ℝ) := by exact_mod_cast h1
      push_cast at hc
      linarith
    have h2' : 9 * ((variance : ℚ) : ℝ) < ((v : ℝ) - (m : ℝ)) ^ 2 := by
      have hc : ((9 * variance : ℚ) : ℝ) < (((v - m) ^ 2 : ℚ) : ℝ) := by exact_mod_cast h2
      push_cast at hc
      nlinarith [hc]
    by_contra hcon
    push_neg at hcon
    have hle : (v : ℝ) - (m : ℝ) ≤ 3 * Real.sqrt (variance : ℚ) := by linarith
    have hsqle : ((v : ℝ) - (m : ℝ)) ^ 2 ≤ (3 * Real.sqrt (variance : ℚ)) ^ 2 := by
      apply pow_le_pow_left (le_of_lt h1') hle
    nlinarith [hsq]

theorem detectMean_eq (data : List Sample) (vals : List ℚ)
    (hv : data.map Sample.value = vals.map some) (hn0 : data.length ≠ 0)
    (hlen : data.length = vals.length) :
    detectMean data = some (qmean vals) := by
  have hvne : vals ≠ [] := by
    intro hh
    apply hn0
    rw [hlen, hh]
    rfl
  unfold detectMean
  rw [hv, jsum_map_some]
  simp [jdivNat, hn0, qmean, hlen, qsum, hvne]

theorem detectVariance_eq (data : List Sample) (vals : List ℚ)
    (hv : data.map Sample.value = vals.map some) (hn0 : data.length ≠ 0)
    (hlen : data.length = vals.length) :
    detectVariance data = some (qvariance vals) := by
  unfold detectVariance
  rw [detectMean_eq data vals hv hn0 hlen, hv]
  have hmaps : (vals.map some).map
      (fun v => jmul (jsub v (some (qmean vals))) (jsub v (some (qmean vals))))
      = (vals.map (fun q => (q - qmean vals) ^ 2)).map some := by
    simp only [List.map_map]
    apply List.map_congr_left
    intro q hq
    simp [jsub, jmul, pow_two]
  have hvne : vals ≠ [] := by
    intro hh
    apply hn0
    rw [hlen, hh]
    rfl
  rw [hmaps, jsum_map_some]
  simp [jdivNat, hn0, qvariance, hlen, qsum, hvne]

theorem tsLe_trans : ∀ a b c : Sample, tsLe a b → tsLe b c → tsLe a c := by
  intro a b c hab hbc
  simp only [tsLe, decide_eq_true_eq] at *
  omega

theorem tsLe_total : ∀ a b : Sample, tsLe a b || tsLe b a := by
  intro a b
  simp only [tsLe, Bool.or_eq_true, decide_eq_true_eq]
  omega

theorem sortByTs_sorted (l : List Sample) :
    (sortByTs l).Pairwise (fun a b => a.timestamp ≤ b.timestamp) := by
  have h := List.sorted_mergeSort tsLe_trans tsLe_total l
  exact h.imp (by intro a b hh; simpa [tsLe] using hh)

theorem fallbackBase_ge (idx h : ℕ) : 30 ≤ fallbackBase idx h := by
  unfold fallbackBase
  split_ifs <;> omega

theorem jsRound2_int_add (n : ℤ) (d : ℚ) :
    jsRound2 ((n : ℚ) + d) = (n : ℚ) + jsRound2 d := by
  unfold jsRound2
  have hh : ((n : ℚ) + d) * 100 + 1 / 2 = ((n * 100 : ℤ) : ℚ) + (d * 100 + 1 / 2) := by
    push_cast
    ring
  rw [hh, Int.floor_int_add]
  push_cast
  ring

theorem jsRound2_bounds (d : ℚ) (hlo : -15 ≤ d) (hhi : d < 15) :
    -15 ≤ jsRound2 d ∧ jsRound2 d ≤ 15 := by
  unfold jsRound2
  have h1 : (-1500 : ℤ) ≤ ⌊d * 100 + 1 / 2⌋ := by
    apply Int.le_floor.mpr
    push_cast
    linarith
  have h2 : ⌊d * 100 + 1 / 2⌋ ≤ 1500 := by
    have hof : ⌊d * 100 + 1 / 2⌋ < 1501 := by
      apply Int.floor_lt.mpr
      push_cast
      linarith
    omega
  have h1q : (-1500 : ℚ) ≤ (⌊d * 100 + 1 / 2⌋ : ℚ) := by exact_mod_cast h1
  have h2q : (⌊d * 100 + 1 / 2⌋ : ℚ) ≤ 1500 := by exact_mod_cast h2
  constructor
  · rw [le_div_iff (by norm_num : (0 : ℚ) < 100)]
    linarith
  · rw [div_le_iff (by norm_num : (0 : ℚ) < 100)]
    linarith

theorem fallbackSample_timestamp (sIdx : Option ℕ) (hourOf : ℤ → ℕ) (now : ℤ) (r : ℚ) (i : ℕ) :
    (fallbackSample sIdx hourOf now r i).timestamp = now - (23 - (i : ℤ)) * 3600000 := by
  cases sIdx <;> rfl

theorem fallbackSample_value (idx : ℕ) (hourOf : ℤ → ℕ) (now : ℤ) (r : ℚ) (i : ℕ)
    (hr0 : 0 ≤ r) (hr1 : r < 1) :
    ∃ v, (fallbackSample (some idx) hourOf now r i).value = some v ∧
      15 ≤ v ∧
      |v - (fallbackBase idx (hourOf ((fallbackSample (some idx) hourOf now r i).timestamp)) : ℚ)| ≤ 15 := by
  refine ⟨_, rfl, ?_, ?_⟩
  · rw [show ((fallbackBase idx (hourOf (now - (23 - (i : ℤ)) * 3600000)) : ℚ) + (r * 30 - 15))
        = (((fallbackBase idx (hourOf (now - (23 - (i : ℤ)) * 3600000)) : ℤ) : ℚ)
            + (r * 30 - 15)) by push_cast; ring]
    rw [jsRound2_int_add]
    have hbnd := jsRound2_bounds (r * 30 - 15) (by linarith) (by linarith)
    have hge := fallbackBase_ge idx (hourOf (now - (23 - (i : ℤ)) * 3600000))
    have hge30 : (30 : ℚ)
        ≤ ((fallbackBase idx (hourOf (now - (23 - (i : ℤ)) * 3600000)) : ℤ) : ℚ) := by
      exact_mod_cast hge
    linarith [hbnd.1]
  · rw [fallbackSample_timestamp]
    rw [show ((fallbackBase idx (hourOf (now - (23 - (i : ℤ)) * 3600000)) : ℚ) + (r * 30 - 15))
        = (((fallbackBase idx (hourOf (now - (23 - (i : ℤ)) * 3600000)) : ℤ) : ℚ)
            + (r * 30 - 15)) by push_cast; ring]
    rw [jsRound2_int_add]
    have hbnd := jsRound2_bounds (r * 30 - 15) (by linarith) (by linarith)
    rw [abs_le]
    constructor
    · push_cast
      linarith [hbnd.1]
    · push_cast
      linarith [hbnd.2]

theorem siteIndexOf_site104 : siteIndexOf ("site_104") = some 4 := by rfl

theorem processResponse_nil : processResponse [] = [] := by
  simp [processResponse, normalizeSeries, sortByTs, keepRecent]

/-- C1: on a non-empty series of numeric values, `detectAnomalies` flags
exactly the samples whose value strictly exceeds `mean + 3 * stddev`
(arithmetic mean and population standard deviation of all values); a value
equal to the threshold is not flagged (the comparison is strict), and a
series of all-identical values yields the empty anomaly list. -/
theorem detect_flags_strict_threshold (data : List Sample) (vals : List ℚ)
    (hv : data.map Sample.value = vals.map some) (hne : data ≠ []) :
    (∃ l, detectAnomalies data = some l ∧
      ∀ s, s ∈ l ↔ s ∈ data ∧ ∃ q, s.value = some q ∧ qthreshold vals < (q : ℝ))
    ∧ ((∃ c, ∀ q ∈ vals, q = c) → detectAnomalies data = some []) := by
  have hn0 : data.length ≠ 0 := fun hh => hne (List.length_eq_zero.mp hh)
  have hlen : data.length = vals.length := by
    have := congrArg List.length hv
    simpa using this
  have hD : detectAnomalies data
      = some (data.filter
          (fun s => jgtTest s.value (some (qmean vals)) (some (qvariance vals)))) := by
    unfold detectAnomalies
    rw [if_neg hn0, detectMean_eq data vals hv hn0 hlen, detectVariance_eq data vals hv hn0 hlen]
  constructor
  · refine ⟨_, hD, ?_⟩
    intro s
    rw [List.mem_filter]
    constructor
    · rintro ⟨hs, ht⟩
      refine ⟨hs, ?_⟩
      cases hval : s.value with
      | none => rw [hval] at ht; simp [jgtTest] at ht
      | some q =>
          refine ⟨q, rfl, ?_⟩
          rw [hval] at ht
          simp only [jgtTest, decide_eq_true_eq] at ht
          have hiff := (jgtTest_iff_threshold q (qmean vals) (qvariance vals)
            (qvariance_nonneg vals)).mpr ht
          unfold qthreshold
          convert hiff using 2
    · rintro ⟨hs, q, hval, hthr⟩
      refine ⟨hs, ?_⟩
      rw [hval]
      simp only [jgtTest, decide_eq_true_eq]
      apply (jgtTest_iff_threshold q (qmean vals) (qvariance vals)
        (qvariance_nonneg vals)).mp
      unfold qthreshold at hthr
      convert hthr using 2
  · rintro ⟨c, hc⟩
    rw [hD]
    congr 1
    rw [List.filter_eq_nil]
    intro s hs
    have hvmem : s.value ∈ vals.map some := by
      rw [← hv]
      exact List.mem_map_of_mem _ hs
    rcases List.mem_map.mp hvmem with ⟨q, hq, hqv⟩
    have hqc : q = c := hc q hq
    have hqm : qmean vals = c := by
      have hsum : qsum vals = vals.length * c := qsum_all_eq c vals hc
      have hvn0 : (vals.length : ℚ) ≠ 0 := by
        have hl0 : vals.length ≠ 0 := by omega
        exact_mod_cast hl0
      rw [qmean, hsum, mul_div_assoc]
      field_simp
    rw [← hqv]
    simp only [jgtTest, decide_eq_true_eq]
    rw [hqm, hqc]
    simp

theorem detect_flags_strict_threshold_witness :
    detectAnomalies [⟨0, some 2⟩, ⟨1, some 2⟩] = some [] :=
  (detect_flags_strict_threshold [⟨0, some 2⟩, ⟨1, some 2⟩] [2, 2] rfl (by simp)).2
    ⟨2, by simp⟩

/-- C2 counterexample: a raw sample whose pollutant field is the non-numeric,
non-empty string "abc" normalizes to NaN, not to 0 — `parseFloat("abc" || 0)`
is `parseFloat("abc")`, which is NaN. -/
theorem processItem_nonnumeric_ce :
    (processItem ⟨0, some (.jstr ("abc"))⟩).value ≠ some 0 := by
  rw [show (processItem ⟨0, some (.jstr ("abc"))⟩).value = none from rfl]
  simp

/-- C2 amended: a raw sample whose pollutant field is absent, `null`, or the
empty string normalizes to the value 0 and the entry is retained in the
output; a non-empty non-numeric string instead yields NaN (also retained). -/
theorem processItem_missing_field_zero (t : ℤ) (f : Option JsonVal)
    (h : f = none ∨ f = some .jnull ∨ f = some (.jstr (""))) (raw : List RawItem)
    (hmem : (⟨t, f⟩ : RawItem) ∈ raw) :
    (processItem ⟨t, f⟩).value = some 0 ∧ processItem ⟨t, f⟩ ∈ raw.map processItem := by
  constructor
  · rcases h with rfl | rfl | rfl <;> rfl
  · exact List.mem_map_of_mem _ hmem

theorem processItem_missing_field_zero_witness :
    (processItem ⟨0, none⟩).value = some 0 ∧
      processItem ⟨0, none⟩ ∈ ([⟨0, none⟩] : List RawItem).map processItem :=
  processItem_missing_field_zero 0 none (Or.inl rfl) [⟨0, none⟩] (by simp)

/-- C3: on a raw input of more than 96 samples, the normalized output has
length exactly 96, is ascending by timestamp, and is the final segment of a
sorted permutation of the mapped input whose dropped prefix is entirely
timestamp-below it — i.e. precisely the chronologically last 96 samples. -/
theorem processResponse_last96 (raw : List RawItem) (h : 96 < raw.length) :
    (processResponse raw).length = 96 ∧
    (processResponse raw).Pairwise (fun a b => a.timestamp ≤ b.timestamp) ∧
    ∃ dropped : List Sample,
      dropped.length = raw.length - 96 ∧
      dropped ++ processResponse raw = sortByTs (raw.map processItem) ∧
      (sortByTs (raw.map processItem)).Perm (raw.map processItem) ∧
      ∀ a ∈ dropped, ∀ b ∈ processResponse raw, a.timestamp ≤ b.timestamp := by
  have hslen : (sortByTs (raw.map processItem)).length = raw.length := by
    simp [sortByTs]
  have hP : processResponse raw
      = (sortByTs (raw.map processItem)).drop (raw.length - 96) := by
    simp [processResponse, normalizeSeries, keepRecent, hslen]
  have hsorted := sortByTs_sorted (raw.map processItem)
  refine ⟨?_, ?_, (sortByTs (raw.map processItem)).take (raw.length - 96), ?_, ?_, ?_, ?_⟩
  · rw [hP, List.length_drop, hslen]
    omega
  · rw [hP]
    exact hsorted.sublist (List.drop_sublist _ _)
  · rw [List.length_take, hslen]
    omega
  · rw [hP, List.take_append_drop]
  · exact List.mergeSort_perm _ _
  · intro a ha b hb
    rw [hP] at hb
    have hsplit : List.Pairwise (fun a b : Sample => a.timestamp ≤ b.timestamp)
        ((sortByTs (raw.map processItem)).take (raw.length - 96)
          ++ (sortByTs (raw.map processItem)).drop (raw.length - 96)) := by
      rw [List.take_append_drop]
      exact hsorted
    exact (List.pairwise_append.mp hsplit).2.2 a ha b hb

theorem processResponse_last96_witness :
    (processResponse (List.replicate 97 ⟨0, none⟩)).length = 96 :=
  (processResponse_last96 (List.replicate 97 ⟨0, none⟩)
    (by norm_num [List.length_replicate])).1

/-- C4: the claim that at most one interval timer is active and each
parameter change triggers exactly one fetch is violated by the code: the
identical refresh effect is declared twice (source lines 244–252 and
268–277), so mounting runs two fetches and leaves two interval timers
active, and every dependency change triggers two further fetches. -/
theorem duplicate_refresh_effects :
    mountPage.activeTimers = 2 ∧ mountPage.fetchCalls = 2 ∧
    (depsChange mountPage).activeTimers = 2 ∧
    (depsChange mountPage).fetchCalls = mountPage.fetchCalls + 2 :=
  ⟨rfl, rfl, rfl, rfl⟩

/-- C5: when the fetch throws, the cycle stores the fallback series of
exactly 24 entries, the detector actually runs on it (the guard does not
fire, so an anomaly list is produced and stored), and exactly one failure
notification is emitted; the step is a total function, so the error never
escapes the cycle. -/
theorem fetchStep_network_error_fallback (siteId : String) (now : ℤ)
    (hourOf : ℤ → ℕ) (noise : ℕ → ℚ) (st : PageState) :
    (fetchStep siteId now hourOf noise st .err).1.graphData
        = generateFallbackData siteId now hourOf noise ∧
    (fetchStep siteId now hourOf noise st .err).1.graphData.length = 24 ∧
    (detectAnomalies (fetchStep siteId now hourOf noise st .err).1.graphData).isSome = true ∧
    (fetchStep siteId now hourOf noise st .err).1.anomalies
        = applyDetect st.anomalies (fetchStep siteId now hourOf noise st .err).1.graphData ∧
    (fetchStep siteId now hourOf noise st .err).2 = [Notice.fetchFailedError] := by
  refine ⟨rfl, by simp [fetchStep, generateFallbackData], ?_, rfl, rfl⟩
  have hlen : (fetchStep siteId now hourOf noise st .err).1.graphData.length = 24 := by
    simp [fetchStep, generateFallbackData]
  rw [detectAnomalies, if_neg (by omega)]
  rfl

/-- C6 counterexample: applying the detector to an empty series does not
produce an empty anomaly list — the guard returns before `setAnomalies`, so
a previously stored non-empty anomaly list survives unchanged. -/
theorem detect_empty_stale_ce :
    applyDetect [⟨0, some 100⟩] [] ≠ [] ∧
    applyDetect [⟨0, some 100⟩] [] = [⟨0, some 100⟩] := by
  refine ⟨?_, rfl⟩
  rw [show applyDetect [⟨0, some 100⟩] [] = [⟨0, some 100⟩] from rfl]
  simp

/-- C6 amended: on an empty series the guard clause yields no result at all
(`setAnomalies` is not called), leaving the previously stored anomaly list
unchanged — it is empty only if it already was. -/
theorem detect_empty_no_update :
    detectAnomalies ([] : List Sample) = none ∧
    ∀ prev : List Sample, applyDetect prev [] = prev :=
  ⟨rfl, fun _ => rfl⟩

/-- C7: normalization is idempotent on input that is already sorted
ascending by timestamp and already bounded by 96 entries. -/
theorem normalizeSeries_idempotent (x : List Sample)
    (hs : x.Pairwise (fun a b => a.timestamp ≤ b.timestamp)) (hb : x.length ≤ 96) :
    normalizeSeries (normalizeSeries x) = normalizeSeries x := by
  have hfix : normalizeSeries x = x := by
    have hsB : x.Pairwise (fun a b => tsLe a b) :=
      hs.imp (by intro a b hh; simpa [tsLe] using hh)
    have hms : sortByTs x = x := List.mergeSort_of_sorted hsB
    have h0 : x.length - 96 = 0 := by omega
    simp [normalizeSeries, keepRecent, hms, h0]
  rw [hfix, hfix]

theorem normalizeSeries_idempotent_witness :
    normalizeSeries (normalizeSeries ([] : List Sample)) = normalizeSeries [] :=
  normalizeSeries_idempotent [] List.Pairwise.nil (by simp)

/-- C8 counterexample: an empty-array response parses and yields zero usable
samples, yet the cycle replaces the existing series by the empty one and
surfaces no warning — the claimed frame condition fails. -/
theorem fetchStep_empty_array_ce :
    (fetchStep ("s") 1 (fun _ => 0) (fun _ => 0) ⟨[⟨0, some 5⟩], [], none⟩
        (.ok (some []))).1.graphData
      ≠ (⟨[⟨0, some 5⟩], [], none⟩ : PageState).graphData ∧
    (fetchStep ("s") 1 (fun _ => 0) (fun _ => 0) ⟨[⟨0, some 5⟩], [], none⟩
        (.ok (some []))).2 = [] := by
  constructor
  · simp only [fetchStep]
    rw [processResponse_nil]
    simp
  · rfl

/-- C8 amended: a response whose data is missing or not an array surfaces
one non-blocking warning, performs no fallback substitution, and leaves the
whole state unchanged; an empty-array response instead replaces the series
by the empty one (still no fallback), leaves the stored anomaly list
unchanged, and surfaces no warning. -/
theorem fetchStep_zero_samples (siteId : String) (now : ℤ) (hourOf : ℤ → ℕ)
    (noise : ℕ → ℚ) (st : PageState) :
    fetchStep siteId now hourOf noise st (.ok none) = (st, [.noDataWarning]) ∧
    fetchStep siteId now hourOf noise st (.ok (some []))
      = (⟨[], st.anomalies, some now⟩, []) := by
  constructor
  · rfl
  · simp only [fetchStep]
    rw [processResponse_nil]
    rfl

/-- C9 counterexample: the fallback generator is not a pure function of
`(siteId, now)` — with the same site id, the same instant and the same local
clock, two runs differing only in the ambient `Math.random()` draws produce
different series. -/
theorem generateFallbackData_not_pure_ce :
    generateFallbackData ("site_104") 0 (fun _ => 12) (fun _ => 0)
      ≠ generateFallbackData ("site_104") 0 (fun _ => 12) (fun _ => (1 : ℚ) / 2) := by
  intro h
  have h0 := congrArg List.head? h
  rw [generateFallbackData, generateFallbackData, siteIndexOf_site104] at h0
  rw [show (24 : ℕ) = 23 + 1 by norm_num, List.range_succ_eq_map] at h0
  simp only [List.map_cons, List.head?_cons] at h0
  unfold fallbackSample at h0
  simp only [Option.some.injEq, Sample.mk.injEq] at h0
  have hval := h0.2
  have hbase : fallbackBase 4 ((fun _ : ℤ => 12) (0 - (23 - ((0 : ℕ) : ℤ)) * 3600000)) = 50 := by
    norm_num [fallbackBase]
  rw [hbase] at hval
  norm_num [jsRound2] at hval

/-- C9 amended: the generator depends on the ambient random stream, so same
`(siteId, now)` does not imply the same series; what does hold is the bound:
for every run whose `Math.random()` draws lie in `[0, 1)`, each of the 24
samples deviates from its deterministic diurnal baseline by at most 15. -/
theorem generateFallbackData_noise_bounded (siteId : String) (idx : ℕ)
    (hidx : siteIndexOf siteId = some idx) (now : ℤ) (hourOf : ℤ → ℕ) (noise : ℕ → ℚ)
    (hnoise : ∀ i, 0 ≤ noise i ∧ noise i < 1) :
    ∀ s ∈ generateFallbackData siteId now hourOf noise,
      ∃ v, s.value = some v ∧
        |v - (fallbackBase idx (hourOf s.timestamp) : ℚ)| ≤ 15 := by
  intro s hs
  unfold generateFallbackData at hs
  rw [hidx] at hs
  rcases List.mem_map.mp hs with ⟨i, hi, rfl⟩
  rcases fallbackSample_value idx hourOf now (noise i) i (hnoise i).1 (hnoise i).2
    with ⟨v, hv, _, habs⟩
  exact ⟨v, hv, habs⟩

theorem generateFallbackData_noise_bounded_witness :
    ∃ v, (fallbackSample (siteIndexOf ("site_104")) (fun _ => 12) 0 0 0).value = some v ∧
      |v - (fallbackBase 4 12 : ℚ)| ≤ 15 :=
  generateFallbackData_noise_bounded ("site_104") 4 siteIndexOf_site104 0
    (fun _ => 12) (fun _ => 0) (fun _ => ⟨le_refl 0, by norm_num⟩)
    (fallbackSample (siteIndexOf ("site_104")) (fun _ => 12) 0 0 0)
    (by
      unfold generateFallbackData
      exact List.mem_map_of_mem _ (by simp))

/-- C10: for a site id containing at least one decimal digit and any
instant, the fallback series has 24 samples with strictly ascending
timestamps and every value at least 15 (hence nonnegative): the baseline is
at least 30 and the rounded noise at least −15. -/
theorem generateFallbackData_series_invariant (siteId : String) (idx : ℕ)
    (hidx : siteIndexOf siteId = some idx) (now : ℤ) (hourOf : ℤ → ℕ) (noise : ℕ → ℚ)
    (hnoise : ∀ i, 0 ≤ noise i ∧ noise i < 1) :
    (generateFallbackData siteId now hourOf noise).length = 24 ∧
    (generateFallbackData siteId now hourOf noise).Pairwise
      (fun a b => a.timestamp < b.timestamp) ∧
    ∀ s ∈ generateFallbackData siteId now hourOf noise,
      ∃ v, s.value = some v ∧ 15 ≤ v := by
  refine ⟨by simp [generateFallbackData], ?_, ?_⟩
  · unfold generateFallbackData
    rw [List.pairwise_map]
    have hrange : (List.range 24).Pairwise (· < ·) := List.pairwise_lt_range 24
    apply hrange.imp_of_mem
    intro i j hi hj hij
    rw [fallbackSample_timestamp, fallbackSample_timestamp]
    have hij' : (i : ℤ) < (j : ℤ) := by exact_mod_cast hij
    linarith
  · intro s hs
    unfold generateFallbackData at hs
    rw [hidx] at hs
    rcases List.mem_map.mp hs with ⟨i, hi, rfl⟩
    rcases fallbackSample_value idx hourOf now (noise i) i (hnoise i).1 (hnoise i).2
      with ⟨v, hv, hge, _⟩
    exact ⟨v, hv, hge⟩

theorem generateFallbackData_series_invariant_witness :
    (generateFallbackData ("site_104") 0 (fun _ => 12) (fun _ => 0)).length = 24 :=
  (generateFallbackData_series_invariant ("site_104") 4 siteIndexOf_site104 0
    (fun _ => 12) (fun _ => 0) (fun _ => ⟨le_refl 0, by norm_num⟩)).1
